import Mathlib

/-!
Verification of the BadgerDB buffer manager core (src/p2/Applications/buffer.cpp)
against its natural-language specification.

The state of the manager (frame table, buffer pool, directory, clock hand,
statistics) is embedded as a Lean structure, and each public operation of
buffer.cpp is translated into a pure state-passing function.  Calls into the
pager (writePage, readPage, deletePage) are recorded in an event trace so that
temporal claims about write-back ordering can be stated.  Exceptions become
values of an error type threaded through Except.

One semantic point about the source is load-bearing and is modelled
faithfully: buffer.cpp writes three of its catch clauses with a function-type
exception-declaration, namely
  catch(BufferExceededException ())   (readPage, line 165)
  catch(HashNotFoundException())      (unPinPage, line 201)
  catch(HashNotFoundException())      (disposePage, line 294)
Per the C++ standard a handler of function type is adjusted to a pointer to
function, so such a handler can never match a thrown exception object; g++
compiles these clauses without complaint and the exception simply propagates
past them.  (The one well-formed handler, catch(HashNotFoundException& e) at
line 153, does catch.)  Consequently in this model the miss path of readPage
propagates BufferExhausted, unPinPage propagates the directory miss, and
disposePage propagates the directory miss without reaching deletePage.

BufDesc.Clear, BufDesc.Set, the directory operations and File::isOpen live in
buffer.h, which is not part of the sources here; they are modelled from the
specification (sections 4.1, 4.2 and 6) where marked below.
-/

/-- One frame descriptor of the BufDesc table.  The source's frameNo field is
initialised to the frame's position in the table and never reassigned, so it
is represented by the list index itself.  file is the owning file handle
(None models the null pointer of a cleared descriptor). -/
structure BufDesc where
  file   : Option Nat
  pageNo : Nat
  pinCnt : Nat
  refbit : Bool
  dirty  : Bool
  valid  : Bool
deriving DecidableEq

/-- Modelled from the spec: section 4.1, Clear resets a descriptor to the
invalid state (pin_count 0, ref_bit false, dirty_bit false, valid_bit false,
file and page unset).  BufDesc::Clear lives in buffer.h, absent from src. -/
def BufDesc.Clear : BufDesc :=
  { file := none, pageNo := 0, pinCnt := 0, refbit := false, dirty := false, valid := false }

/-- Modelled from the spec: section 4.1, Set assigns identity, sets valid,
pin_count 1, and clears ref_bit and dirty_bit.  BufDesc::Set lives in
buffer.h, absent from src. -/
def BufDesc.Set (file : Nat) (pageNo : Nat) : BufDesc :=
  { file := some file, pageNo := pageNo, pinCnt := 1, refbit := false, dirty := false, valid := true }

/-- Pager events: every call the buffer manager makes into a file object.
writeP carries the file handle stored in the descriptor (an Option, since the
source passes the possibly-null stored pointer) and the page number held in
the written buffer. -/
inductive Ev where
  | writeP  : Option Nat → Nat → Ev
  | readP   : Nat → Nat → Ev
  | deleteP : Nat → Nat → Ev
deriving DecidableEq

/-- The errors (exceptions) of buffer.cpp that can escape an operation. -/
inductive BufErr where
  | bufferExhausted
  | notPinned
  | pagePinned
  | badBuffer
  | hashNotFound
deriving DecidableEq

/-- The buffer manager state: descriptor table, page pool (each slot holds the
page number of the page object currently stored there), the (file, page) to
frame directory, the clock hand and the BufStats counters. -/
structure BufMgr where
  numBufs      : Nat
  bufDescTable : List BufDesc
  bufPool      : List Nat
  hashTable    : List ((Option Nat × Nat) × Nat)
  clockHand    : Nat
  accesses     : Nat
  diskreads    : Nat
  diskwrites   : Nat
deriving DecidableEq

/-- Modelled from the spec: section 4.2, directory lookup (BufHashTbl::lookup,
buffer.h absent from src); returns the frame index mapped to the key, None
for the HashNotFoundException case. -/
def htLookup (ht : List ((Option Nat × Nat) × Nat)) (k : Option Nat × Nat) : Option Nat :=
  match ht with
  | [] => none
  | (k1, v) :: rest => if k1 = k then some v else htLookup rest k

/-- Modelled from the spec: section 4.2, directory removal (BufHashTbl::remove,
buffer.h absent from src).  The directory never holds two entries with the
same key (insert fails with DuplicateKey, spec 4.2), so removing every
occurrence of the key coincides with the source's removal of the unique one;
its NotFound failure cannot fire in any state satisfying invariant I1, which
all theorems below respect, so it is modelled total. -/
def removeEntry (ht : List ((Option Nat × Nat) × Nat)) (k : Option Nat × Nat) :
    List ((Option Nat × Nat) × Nat) :=
  match ht with
  | [] => []
  | (k1, v) :: rest => if k1 = k then removeEntry rest k else (k1, v) :: removeEntry rest k

/-- The descriptor of frame i (out-of-range reads give the cleared descriptor;
they never occur in the states the theorems quantify over). -/
def frameAt (m : BufMgr) (i : Nat) : BufDesc :=
  m.bufDescTable.getD i BufDesc.Clear

/-- The descriptor under the clock hand. -/
def handFrame (m : BufMgr) : BufDesc :=
  frameAt m m.clockHand

/-- BufMgr::advanceClock, buffer.cpp line 76: hand := (hand + 1) mod numBufs. -/
def advanceClock (m : BufMgr) : BufMgr :=
  { m with clockHand := (m.clockHand + 1) % m.numBufs }

/-- Clearing the ref bit of the frame under the hand
(bufDescTable[clockHand].refbit = false, buffer.cpp line 100). -/
def clearRefAtHand (m : BufMgr) : BufMgr :=
  { m with bufDescTable := m.bufDescTable.set m.clockHand { handFrame m with refbit := false } }

/-- How the while loop of BufMgr::allocBuf (buffer.cpp lines 92 to 108) ends:
an invalid frame returned immediately (line 96, skipping the write-back
block), the break on an unpinned ref-bit-clear frame (line 104, which then
runs the write-back block), or the guard failure pinCount > numBufs that
leads to BufferExceededException (line 110). -/
inductive LoopExit where
  | freshFrame : Nat → LoopExit
  | victim     : Nat → LoopExit
  | exhausted  : LoopExit
deriving DecidableEq

/-- The while loop of BufMgr::allocBuf, buffer.cpp lines 90 to 108, with an
explicit fuel argument so that the function is structurally recursive and
computes.  The loop guard pinCount <= numBufs is checked at the top; each
iteration advances the hand, returns an invalid frame immediately, clears a
set ref bit and continues, breaks on an unpinned frame, or counts a pinned
frame in pinCount.  allocBufLoop_isSome below proves that the fuel allocBuf
supplies can never run out on a table of length numBufs, so the None result
is unreachable there. -/
def allocBufLoop (fuel : Nat) (m : BufMgr) (pinCount : Nat) :
    Option (BufMgr × LoopExit) :=
  match fuel with
  | 0 => none
  | fuel + 1 =>
    if m.numBufs < pinCount then some (m, LoopExit.exhausted)
    else
      let m1 := advanceClock m
      if (handFrame m1).valid = false then some (m1, LoopExit.freshFrame m1.clockHand)
      else if (handFrame m1).refbit = true then allocBufLoop fuel (clearRefAtHand m1) pinCount
      else if (handFrame m1).pinCnt = 0 then some (m1, LoopExit.victim m1.clockHand)
      else allocBufLoop fuel m1 (pinCount + 1)

/-- BufMgr::allocBuf, buffer.cpp lines 88 to 123.  On the break exit (a valid,
unpinned, ref-bit-clear victim) the victim is written back when dirty (line
115; note the source increments no statistic there), its directory entry is
removed under its stored identity (line 121) and the descriptor is cleared
(line 122).  The invalid-frame exit returns without any of that.  The None
fallback is unreachable by allocBufLoop_isSome. -/
def allocBuf (m : BufMgr) : BufMgr × List Ev × Except BufErr Nat :=
  match allocBufLoop (2 * m.numBufs + 2) m 0 with
  | none => (m, [], Except.error BufErr.bufferExhausted)
  | some (m1, LoopExit.exhausted) => (m1, [], Except.error BufErr.bufferExhausted)
  | some (m1, LoopExit.freshFrame i) => (m1, [], Except.ok i)
  | some (m1, LoopExit.victim i) =>
    let d := frameAt m1 i
    let evs : List Ev := if d.dirty then [Ev.writeP d.file (m1.bufPool.getD i 0)] else []
    ({ m1 with
        hashTable := removeEntry m1.hashTable (d.file, d.pageNo)
      , bufDescTable := m1.bufDescTable.set i BufDesc.Clear }
     , evs, Except.ok i)

/-- BufMgr::readPage, buffer.cpp lines 145 to 170.  Hit: set the ref bit and
increment the pin count (lines 151 to 152).  Miss: allocBuf, read the page
into the frame, insert the directory entry, Set the descriptor (lines 157 to
163).  The source updates no statistic on either path.  The catch clause at
line 165 declares a function type and can never match, so a
BufferExceededException from allocBuf propagates with whatever state the
sweep left behind. -/
def readPage (m : BufMgr) (file : Nat) (pageNo : Nat) :
    BufMgr × List Ev × Except BufErr Nat :=
  match htLookup m.hashTable (some file, pageNo) with
  | some frameNo =>
    let d := frameAt m frameNo
    ({ m with bufDescTable :=
        m.bufDescTable.set frameNo { d with refbit := true, pinCnt := d.pinCnt + 1 } }
     , [], Except.ok frameNo)
  | none =>
    match allocBuf m with
    | (m1, evs, Except.error e) => (m1, evs, Except.error e)
    | (m1, evs, Except.ok frameNo) =>
      let m2 := { m1 with bufPool := m1.bufPool.set frameNo pageNo }
      let m3 := { m2 with hashTable := ((some file, pageNo), frameNo) :: m2.hashTable }
      let m4 := { m3 with bufDescTable := m3.bufDescTable.set frameNo (BufDesc.Set file pageNo) }
      (m4, evs ++ [Ev.readP file pageNo], Except.ok frameNo)

/-- BufMgr::unPinPage, buffer.cpp lines 183 to 202.  Pin count zero raises
PageNotPinnedException; otherwise the dirty flag is set when requested and
the pin count decremented.  The catch clause at line 201 declares a function
type and can never match, so a directory miss propagates
HashNotFoundException instead of being a no-op. -/
def unPinPage (m : BufMgr) (file : Nat) (pageNo : Nat) (dirty : Bool) :
    BufMgr × Except BufErr Unit :=
  match htLookup m.hashTable (some file, pageNo) with
  | none => (m, Except.error BufErr.hashNotFound)
  | some frameNo =>
    let d := frameAt m frameNo
    if d.pinCnt = 0 then (m, Except.error BufErr.notPinned)
    else
      let d1 := if dirty then { d with dirty := true } else d
      ({ m with bufDescTable := m.bufDescTable.set frameNo { d1 with pinCnt := d1.pinCnt - 1 } }
       , Except.ok ())

/-- BufMgr::disposePage, buffer.cpp lines 286 to 300.  On a directory hit the
entry is removed under the descriptor's stored identity and the descriptor
cleared, then deletePage is called.  The catch clause at line 294 declares a
function type and can never match, so on a miss the HashNotFoundException
propagates and deletePage at line 298 is never reached. -/
def disposePage (m : BufMgr) (file : Nat) (pageNo : Nat) :
    BufMgr × List Ev × Except BufErr Unit :=
  match htLookup m.hashTable (some file, pageNo) with
  | some frameNo =>
    let d := frameAt m frameNo
    ({ m with
        hashTable := removeEntry m.hashTable (d.file, d.pageNo)
      , bufDescTable := m.bufDescTable.set frameNo BufDesc.Clear }
     , [Ev.deleteP file pageNo], Except.ok ())
  | none => (m, [], Except.error BufErr.hashNotFound)

/-- The per-frame body of BufMgr::flushFile, buffer.cpp lines 238 to 274, as a
recursion over the list of frame indices the scan visits.  Each iteration
first increments accesses (line 241), then for a frame of the target file
raises BadBufferException on an invalid frame, PagePinnedException on a
pinned one, writes back a dirty page (incrementing diskwrites and clearing
the dirty bit), removes the directory entry and clears the descriptor. -/
def flushLoop (f : Nat) : List Nat → BufMgr → BufMgr × List Ev × Except BufErr Unit
  | [], m => (m, [], Except.ok ())
  | i :: rest, m =>
    let d := frameAt m i
    let m1 := { m with accesses := m.accesses + 1 }
    if d.file = some f then
      if d.valid = false then (m1, [], Except.error BufErr.badBuffer)
      else if 0 < d.pinCnt then (m1, [], Except.error BufErr.pagePinned)
      else
        let evs : List Ev := if d.dirty then [Ev.writeP d.file (m.bufPool.getD i 0)] else []
        let m2 := if d.dirty then
            { m1 with bufDescTable := m1.bufDescTable.set i { d with dirty := false }
                    , diskwrites := m1.diskwrites + 1 }
          else m1
        let m3 := { m2 with
            hashTable := removeEntry m2.hashTable (some f, d.pageNo)
          , bufDescTable := m2.bufDescTable.set i BufDesc.Clear }
        let r := flushLoop f rest m3
        (r.1, evs ++ r.2.1, r.2.2)
    else flushLoop f rest m1

/-- BufMgr::flushFile, buffer.cpp lines 235 to 275: scan every frame in index
order. -/
def flushFile (m : BufMgr) (f : Nat) : BufMgr × List Ev × Except BufErr Unit :=
  flushLoop f (List.range m.numBufs) m

/-- Modelled from the spec: section 6, File::isOpen on the stored handle
(buffer.h and the File class are absent from src).  A cleared (null) handle
is treated as not open; the destructor tests dirty first, so with the
invariant that dirty frames are valid the null case is never dereferenced in
the source either. -/
def isOpenF (openFiles : List Nat) : Option Nat → Bool
  | none => false
  | some f => openFiles.contains f

/-- The loop of the destructor BufMgr::~BufMgr, buffer.cpp lines 55 to 64:
for every frame whose descriptor is dirty and whose file is still open, the
page is written back, the dirty bit cleared and diskwrites incremented. -/
def dtorLoop (openFiles : List Nat) : List Nat → BufMgr → BufMgr × List Ev
  | [], m => (m, [])
  | i :: rest, m =>
    let d := frameAt m i
    if d.dirty && isOpenF openFiles d.file then
      let r := dtorLoop openFiles rest
        { m with bufDescTable := m.bufDescTable.set i { d with dirty := false }
               , diskwrites := m.diskwrites + 1 }
      (r.1, Ev.writeP d.file (m.bufPool.getD i 0) :: r.2)
    else dtorLoop openFiles rest m

/-- BufMgr::~BufMgr, buffer.cpp lines 53 to 70 (the flush loop before the
arrays are deallocated).  The destructor raises no error: it performs only
the writes recorded in the returned trace. -/
def destructBufMgr (m : BufMgr) (openFiles : List Nat) : BufMgr × List Ev :=
  dtorLoop openFiles (List.range m.numBufs) m

/-- The constructor BufMgr::BufMgr, buffer.cpp lines 31 to 47: all frames
start clear, the directory empty, the hand at numBufs - 1, the statistics at
zero. -/
def BufMgr.init (bufs : Nat) : BufMgr :=
  { numBufs := bufs
  , bufDescTable := List.replicate bufs BufDesc.Clear
  , bufPool := List.replicate bufs 0
  , hashTable := []
  , clockHand := bufs - 1
  , accesses := 0
  , diskreads := 0
  , diskwrites := 0 }

/-- Number of set ref bits in a descriptor table; the decreasing measure of
the clock sweep together with the pinned-visit counter. -/
def countRef (l : List BufDesc) : Nat :=
  l.countP (fun d => d.refbit)

/-- States related by a failed sweep: everything agrees except that the clock
hand may have moved and ref bits may have been cleared (never set). -/
def sweepOnly (m m1 : BufMgr) : Prop :=
  m1.numBufs = m.numBufs ∧
  m1.hashTable = m.hashTable ∧
  m1.bufPool = m.bufPool ∧
  m1.accesses = m.accesses ∧
  m1.diskreads = m.diskreads ∧
  m1.diskwrites = m.diskwrites ∧
  m1.bufDescTable.length = m.bufDescTable.length ∧
  ∀ i, (frameAt m1 i).file = (frameAt m i).file ∧
       (frameAt m1 i).pageNo = (frameAt m i).pageNo ∧
       (frameAt m1 i).pinCnt = (frameAt m i).pinCnt ∧
       (frameAt m1 i).dirty = (frameAt m i).dirty ∧
       (frameAt m1 i).valid = (frameAt m i).valid ∧
       ((frameAt m1 i).refbit = true → (frameAt m i).refbit = true)

/-- Pool of size 2 with both frames pinned: the state of the C1 scenario. -/
def mC1 : BufMgr :=
  { numBufs := 2
  , bufDescTable :=
      [ { file := some 1, pageNo := 0, pinCnt := 1, refbit := true, dirty := false, valid := true }
      , { file := some 1, pageNo := 1, pinCnt := 1, refbit := false, dirty := false, valid := true } ]
  , bufPool := [0, 1]
  , hashTable := [((some 1, 0), 0), ((some 1, 1), 1)]
  , clockHand := 1
  , accesses := 5, diskreads := 6, diskwrites := 7 }

/-- Pool of size 1 holding a dirty, unpinned page: the C2 eviction scenario. -/
def mC2 : BufMgr :=
  { numBufs := 1
  , bufDescTable :=
      [ { file := some 7, pageNo := 3, pinCnt := 0, refbit := false, dirty := true, valid := true } ]
  , bufPool := [3]
  , hashTable := [((some 7, 3), 0)]
  , clockHand := 0
  , accesses := 9, diskreads := 2, diskwrites := 4 }

/-- Pool of size 1 holding a clean, unpinned page; used to witness the sweep
case analysis. -/
def mC3 : BufMgr :=
  { numBufs := 1
  , bufDescTable :=
      [ { file := some 7, pageNo := 3, pinCnt := 0, refbit := false, dirty := false, valid := true } ]
  , bufPool := [3]
  , hashTable := [((some 7, 3), 0)]
  , clockHand := 0
  , accesses := 0, diskreads := 0, diskwrites := 0 }

/-- Pool of size 3: frames 0 and 1 pinned, frame 2 unpinned with its ref bit
set, hand so that frame 0 is visited first.  The evictable frame 2 exists,
yet the source's pinCount bound fires first. -/
def mC4 : BufMgr :=
  { numBufs := 3
  , bufDescTable :=
      [ { file := some 1, pageNo := 0, pinCnt := 1, refbit := false, dirty := false, valid := true }
      , { file := some 1, pageNo := 1, pinCnt := 1, refbit := false, dirty := false, valid := true }
      , { file := some 1, pageNo := 2, pinCnt := 0, refbit := true, dirty := false, valid := true } ]
  , bufPool := [0, 1, 2]
  , hashTable := [((some 1, 0), 0), ((some 1, 1), 1), ((some 1, 2), 2)]
  , clockHand := 2
  , accesses := 0, diskreads := 0, diskwrites := 0 }

/-- Pool of size 2 for the destructor witness: frame 0 dirty with its file
open, frame 1 dirty with its file closed. -/
def mC7 : BufMgr :=
  { numBufs := 2
  , bufDescTable :=
      [ { file := some 1, pageNo := 0, pinCnt := 0, refbit := false, dirty := true, valid := true }
      , { file := some 2, pageNo := 0, pinCnt := 0, refbit := false, dirty := true, valid := true } ]
  , bufPool := [0, 0]
  , hashTable := [((some 1, 0), 0), ((some 2, 0), 1)]
  , clockHand := 1
  , accesses := 0, diskreads := 0, diskwrites := 0 }

/-- Pool of size 2 for the flush witness: frame 0 a dirty unpinned page of
file 1, frame 1 a page of file 2. -/
def mC8 : BufMgr :=
  { numBufs := 2
  , bufDescTable :=
      [ { file := some 1, pageNo := 4, pinCnt := 0, refbit := false, dirty := true, valid := true }
      , { file := some 2, pageNo := 9, pinCnt := 3, refbit := true, dirty := true, valid := true } ]
  , bufPool := [4, 9]
  , hashTable := [((some 1, 4), 0), ((some 2, 9), 1)]
  , clockHand := 1
  , accesses := 10, diskreads := 0, diskwrites := 0 }

/-- Pool of size 1 caching a page that is both pinned (pin count 5) and
dirty: the C10 dispose scenario. -/
def mC10 : BufMgr :=
  { numBufs := 1
  , bufDescTable :=
      [ { file := some 7, pageNo := 3, pinCnt := 5, refbit := true, dirty := true, valid := true } ]
  , bufPool := [3]
  , hashTable := [((some 7, 3), 0)]
  , clockHand := 0
  , accesses := 0, diskreads := 0, diskwrites := 0 }

/-! ### Supporting lemmas -/

theorem listGetD_set {α : Type} (l : List α) :
    ∀ (i j : Nat) (a d : α),
      (l.set i a).getD j d = if i = j ∧ i < l.length then a else l.getD j d := by
  induction l with
  | nil => intro i j a d; simp [List.set]
  | cons x xs ih =>
    intro i j a d
    cases i with
    | zero =>
      cases j with
      | zero => simp
      | succ j => simp
    | succ i =>
      cases j with
      | zero => simp
      | succ j =>
        simp only [List.set, List.getD_cons_succ, ih i j a d, List.length_cons]
        by_cases h1 : i = j
        · subst h1
          by_cases h2 : i < xs.length
          · simp [h2, Nat.succ_lt_succ h2]
          · have h3 : ¬ i + 1 < xs.length + 1 := by omega
            simp [h2, h3]
        · have h4 : ¬ i + 1 = j + 1 := by omega
          simp [h1, h4]

theorem countRef_set_lt (l : List BufDesc) :
    ∀ (i : Nat) (a : BufDesc), i < l.length → (l.getD i BufDesc.Clear).refbit = true →
      a.refbit = false → countRef (l.set i a) < countRef l := by
  induction l with
  | nil => intro i a h; simp at h
  | cons x xs ih =>
    intro i a hi hr ha
    cases i with
    | zero =>
      simp only [List.getD_cons_zero] at hr
      simp [List.set, countRef, List.countP_cons, hr, ha]
    | succ i =>
      simp only [List.getD_cons_succ] at hr
      simp only [List.length_cons, Nat.succ_lt_succ_iff] at hi
      have := ih i a hi hr ha
      simp only [List.set, countRef, List.countP_cons] at *
      omega

theorem htLookup_removeEntry_self (ht : List ((Option Nat × Nat) × Nat)) (k : Option Nat × Nat) :
    htLookup (removeEntry ht k) k = none := by
  induction ht with
  | nil => rfl
  | cons e rest ih =>
    by_cases h : e.1 = k
    · simp [removeEntry, h, ih]
    · simp [removeEntry, htLookup, h, ih]

theorem htLookup_removeEntry_ne (ht : List ((Option Nat × Nat) × Nat))
    (k k' : Option Nat × Nat) (h : k' ≠ k) :
    htLookup (removeEntry ht k) k' = htLookup ht k' := by
  have hkk : ¬ (k = k') := fun hh => h hh.symm
  induction ht with
  | nil => rfl
  | cons e rest ih =>
    by_cases he : e.1 = k
    · have hek : ¬ (e.1 = k') := by rw [he]; exact hkk
      simp [removeEntry, htLookup, he, hek, hkk, ih]
    · by_cases he' : e.1 = k'
      · simp [removeEntry, htLookup, he, he', h, hkk]
      · simp [removeEntry, htLookup, he, he', ih]

theorem sweepOnly_refl (m : BufMgr) : sweepOnly m m := by
  refine ⟨rfl, rfl, rfl, rfl, rfl, rfl, rfl, ?_⟩
  intro i; exact ⟨rfl, rfl, rfl, rfl, rfl, fun h => h⟩

theorem sweepOnly_trans {a b c : BufMgr} (h1 : sweepOnly a b) (h2 : sweepOnly b c) :
    sweepOnly a c := by
  obtain ⟨n1, h1t, p1, a1, r1, w1, l1, f1⟩ := h1
  obtain ⟨n2, h2t, p2, a2, r2, w2, l2, f2⟩ := h2
  refine ⟨n2.trans n1, h2t.trans h1t, p2.trans p1, a2.trans a1, r2.trans r1, w2.trans w1,
    l2.trans l1, ?_⟩
  intro i
  obtain ⟨q1, q2, q3, q4, q5, q6⟩ := f1 i
  obtain ⟨s1, s2, s3, s4, s5, s6⟩ := f2 i
  exact ⟨s1.trans q1, s2.trans q2, s3.trans q3, s4.trans q4, s5.trans q5,
    fun h => q6 (s6 h)⟩

theorem frameAt_advance (m : BufMgr) (i : Nat) : frameAt (advanceClock m) i = frameAt m i := rfl

theorem sweepOnly_advance (m : BufMgr) : sweepOnly m (advanceClock m) := by
  refine ⟨rfl, rfl, rfl, rfl, rfl, rfl, rfl, ?_⟩
  intro i; exact ⟨rfl, rfl, rfl, rfl, rfl, fun h => h⟩

theorem frameAt_clearRef (m : BufMgr) (i : Nat) :
    frameAt (clearRefAtHand m) i = frameAt m i ∨
    frameAt (clearRefAtHand m) i = { frameAt m i with refbit := false } := by
  unfold frameAt clearRefAtHand
  rw [listGetD_set]
  by_cases h : m.clockHand = i ∧ m.clockHand < m.bufDescTable.length
  · right
    rw [if_pos h]
    unfold handFrame frameAt
    rw [h.1]
  · left; rw [if_neg h]

theorem sweepOnly_clearRef (m : BufMgr) : sweepOnly m (clearRefAtHand m) := by
  refine ⟨rfl, rfl, rfl, rfl, rfl, rfl, by simp [clearRefAtHand], ?_⟩
  intro i
  rcases frameAt_clearRef m i with h | h <;> rw [h]
  · exact ⟨rfl, rfl, rfl, rfl, rfl, fun h => h⟩
  · exact ⟨rfl, rfl, rfl, rfl, rfl, fun h => by simp at h⟩

theorem getD_of_le {α : Type} (l : List α) :
    ∀ (i : Nat) (d : α), l.length ≤ i → l.getD i d = d := by
  induction l with
  | nil => intro i d _; cases i <;> rfl
  | cons x xs ih =>
    intro i d h
    cases i with
    | zero => simp at h
    | succ i =>
      simp only [List.length_cons, Nat.succ_le_succ_iff] at h
      simpa using ih i d h

theorem countRef_le_length (l : List BufDesc) : countRef l ≤ l.length := by
  unfold countRef
  exact List.countP_le_length _

theorem allocBufLoop_succ (fuel : Nat) (m : BufMgr) (pc : Nat) :
    allocBufLoop (fuel + 1) m pc =
      if m.numBufs < pc then some (m, LoopExit.exhausted)
      else
        if (handFrame (advanceClock m)).valid = false then
          some (advanceClock m, LoopExit.freshFrame (advanceClock m).clockHand)
        else if (handFrame (advanceClock m)).refbit = true then
          allocBufLoop fuel (clearRefAtHand (advanceClock m)) pc
        else if (handFrame (advanceClock m)).pinCnt = 0 then
          some (advanceClock m, LoopExit.victim (advanceClock m).clockHand)
        else allocBufLoop fuel (advanceClock m) (pc + 1) := rfl

theorem countRef_clearRef (m : BufMgr) (hh : m.clockHand < m.bufDescTable.length)
    (hr : (handFrame m).refbit = true) :
    countRef (clearRefAtHand m).bufDescTable < countRef m.bufDescTable := by
  unfold clearRefAtHand
  exact countRef_set_lt m.bufDescTable m.clockHand _ hh hr rfl

theorem handFrame_in_range_of_refbit (m : BufMgr) (hr : (handFrame m).refbit = true) :
    m.clockHand < m.bufDescTable.length := by
  by_contra h
  have : handFrame m = BufDesc.Clear := getD_of_le m.bufDescTable m.clockHand BufDesc.Clear (by omega)
  rw [this] at hr
  simp [BufDesc.Clear] at hr

theorem allocBufLoop_isSome : ∀ (fuel : Nat) (m : BufMgr) (pc : Nat),
    countRef m.bufDescTable + (m.numBufs + 1 - pc) < fuel →
    (allocBufLoop fuel m pc).isSome = true := by
  intro fuel
  induction fuel with
  | zero => intro m pc h; omega
  | succ fuel ih =>
    intro m pc h
    rw [allocBufLoop_succ]
    by_cases hpc : m.numBufs < pc
    · simp [hpc]
    rw [if_neg hpc]
    by_cases hv : (handFrame (advanceClock m)).valid = false
    · simp [hv]
    rw [if_neg hv]
    by_cases hr : (handFrame (advanceClock m)).refbit = true
    · rw [if_pos hr]
      apply ih
      have hh := handFrame_in_range_of_refbit (advanceClock m) hr
      have hlt := countRef_clearRef (advanceClock m) hh hr
      have h1 : countRef (advanceClock m).bufDescTable = countRef m.bufDescTable := rfl
      have h2 : (clearRefAtHand (advanceClock m)).numBufs = m.numBufs := rfl
      rw [h2]
      omega
    rw [if_neg hr]
    by_cases hp : (handFrame (advanceClock m)).pinCnt = 0
    · simp [hp]
    rw [if_neg hp]
    apply ih
    have h1 : (advanceClock m).bufDescTable = m.bufDescTable := rfl
    have h2 : (advanceClock m).numBufs = m.numBufs := rfl
    rw [h1, h2]
    omega

theorem allPinned_loop : ∀ (fuel : Nat) (m : BufMgr) (pc : Nat),
    m.bufDescTable.length = m.numBufs → 0 < m.numBufs →
    (∀ i, i < m.numBufs → (frameAt m i).valid = true ∧ 0 < (frameAt m i).pinCnt) →
    countRef m.bufDescTable + (m.numBufs + 1 - pc) < fuel →
    ∃ m1, allocBufLoop fuel m pc = some (m1, LoopExit.exhausted) ∧ sweepOnly m m1 := by
  intro fuel
  induction fuel with
  | zero => intro m pc _ _ _ h; omega
  | succ fuel ih =>
    intro m pc hlen hn hpin h
    rw [allocBufLoop_succ]
    by_cases hpc : m.numBufs < pc
    · exact ⟨m, by rw [if_pos hpc], sweepOnly_refl m⟩
    rw [if_neg hpc]
    have hhand : (advanceClock m).clockHand < m.numBufs := Nat.mod_lt _ hn
    have hfr : frameAt (advanceClock m) (advanceClock m).clockHand =
        frameAt m (advanceClock m).clockHand := rfl
    have hd := hpin (advanceClock m).clockHand hhand
    have hv : ¬ ((handFrame (advanceClock m)).valid = false) := by
      unfold handFrame
      rw [hfr, hd.1]
      simp
    rw [if_neg hv]
    have hp : ¬ ((handFrame (advanceClock m)).pinCnt = 0) := by
      unfold handFrame
      rw [hfr]
      omega
    by_cases hr : (handFrame (advanceClock m)).refbit = true
    · rw [if_pos hr]
      have hh : (advanceClock m).clockHand < (advanceClock m).bufDescTable.length := by
        have : (advanceClock m).bufDescTable = m.bufDescTable := rfl
        rw [this, hlen]; exact hhand
      have hlt := countRef_clearRef (advanceClock m) hh hr
      have hlen2 : (clearRefAtHand (advanceClock m)).bufDescTable.length = m.numBufs := by
        simp [clearRefAtHand]
        exact hlen
      have hpin2 : ∀ i, i < (clearRefAtHand (advanceClock m)).numBufs →
          (frameAt (clearRefAtHand (advanceClock m)) i).valid = true ∧
          0 < (frameAt (clearRefAtHand (advanceClock m)) i).pinCnt := by
        intro i hi
        have hi' : i < m.numBufs := hi
        rcases frameAt_clearRef (advanceClock m) i with hcase | hcase <;> rw [hcase] <;>
          · have : frameAt (advanceClock m) i = frameAt m i := rfl
            rw [this]
            exact ⟨(hpin i hi').1, (hpin i hi').2⟩
      obtain ⟨m1, heq, hsw⟩ := ih (clearRefAtHand (advanceClock m)) pc hlen2 hn hpin2 (by
        have h1 : countRef (advanceClock m).bufDescTable = countRef m.bufDescTable := rfl
        have h2 : (clearRefAtHand (advanceClock m)).numBufs = m.numBufs := rfl
        rw [h2]
        omega)
      refine ⟨m1, heq, ?_⟩
      exact sweepOnly_trans (sweepOnly_trans (sweepOnly_advance m)
        (sweepOnly_clearRef (advanceClock m))) hsw
    · rw [if_neg hr, if_neg hp]
      have hpin1 : ∀ i, i < (advanceClock m).numBufs →
          (frameAt (advanceClock m) i).valid = true ∧
          0 < (frameAt (advanceClock m) i).pinCnt := hpin
      obtain ⟨m1, heq, hsw⟩ := ih (advanceClock m) (pc + 1) hlen hn hpin1 (by
        have h1 : (advanceClock m).bufDescTable = m.bufDescTable := rfl
        have h2 : (advanceClock m).numBufs = m.numBufs := rfl
        rw [h1, h2]
        omega)
      exact ⟨m1, heq, sweepOnly_trans (sweepOnly_advance m) hsw⟩

theorem frameAt_set_other (tbl : List BufDesc) (i j : Nat) (a : BufDesc) (hne : i ≠ j) :
    (tbl.set i a).getD j BufDesc.Clear = tbl.getD j BufDesc.Clear := by
  rw [listGetD_set]
  simp [hne]

theorem dtorLoop_spec (openFiles : List Nat) :
    ∀ (is : List Nat) (m : BufMgr), is.Nodup →
    ∃ m1 evs, dtorLoop openFiles is m = (m1, evs) ∧
      (∀ i ∈ is, (frameAt m i).dirty = true → isOpenF openFiles (frameAt m i).file = true →
        Ev.writeP (frameAt m i).file (m.bufPool.getD i 0) ∈ evs) ∧
      (∀ e ∈ evs, ∃ i ∈ is, (frameAt m i).dirty = true ∧
        isOpenF openFiles (frameAt m i).file = true ∧
        e = Ev.writeP (frameAt m i).file (m.bufPool.getD i 0)) ∧
      m1.diskwrites = m.diskwrites + evs.length ∧
      m1.bufPool = m.bufPool := by
  intro is
  induction is with
  | nil =>
    intro m _
    exact ⟨m, [], rfl, by simp, by simp, by simp, rfl⟩
  | cons i rest ih =>
    intro m hnd
    have hni : i ∉ rest := (List.nodup_cons.mp hnd).1
    have hnd' : rest.Nodup := (List.nodup_cons.mp hnd).2
    by_cases hc : ((frameAt m i).dirty && isOpenF openFiles (frameAt m i).file) = true
    · obtain ⟨m1, evs', heq', hA, hB, hW, hP⟩ := ih
        { m with bufDescTable := m.bufDescTable.set i { frameAt m i with dirty := false }
               , diskwrites := m.diskwrites + 1 } hnd'
      have hsplit : (frameAt m i).dirty = true ∧ isOpenF openFiles (frameAt m i).file = true := by
        simpa using hc
      have hframes : ∀ j ∈ rest, frameAt
          { m with bufDescTable := m.bufDescTable.set i { frameAt m i with dirty := false }
                 , diskwrites := m.diskwrites + 1 } j = frameAt m j := by
        intro j hj
        have hij : i ≠ j := fun h => hni (h ▸ hj)
        exact frameAt_set_other m.bufDescTable i j _ hij
      refine ⟨m1, Ev.writeP (frameAt m i).file (m.bufPool.getD i 0) :: evs', ?_, ?_, ?_, ?_, ?_⟩
      · show dtorLoop openFiles (i :: rest) m = _
        unfold dtorLoop
        rw [if_pos hc, heq']
      · intro j hj hd ho
        rcases List.mem_cons.mp hj with hj | hj
        · subst hj
          exact List.mem_cons_self _ _
        · have h1 := hA j hj
          rw [hframes j hj] at h1
          exact List.mem_cons_of_mem _ (h1 hd ho)
      · intro e he
        rcases List.mem_cons.mp he with he | he
        · exact ⟨i, List.mem_cons_self _ _, hsplit.1, hsplit.2, by rw [he]⟩
        · obtain ⟨j, hj, hd, ho, hee⟩ := hB e he
          rw [hframes j hj] at hd ho hee
          exact ⟨j, List.mem_cons_of_mem _ hj, hd, ho, hee⟩
      · have hW' : m1.diskwrites = m.diskwrites + 1 + evs'.length := hW
        simp only [List.length_cons]
        omega
      · exact hP
    · obtain ⟨m1, evs', heq', hA, hB, hW, hP⟩ := ih m hnd'
      refine ⟨m1, evs', ?_, ?_, ?_, hW, hP⟩
      · show dtorLoop openFiles (i :: rest) m = _
        unfold dtorLoop
        rw [if_neg hc]
        exact heq'
      · intro j hj hd ho
        rcases List.mem_cons.mp hj with hj | hj
        · subst hj
          exact absurd (by simp [hd, ho]) hc
        · exact hA j hj hd ho
      · intro e he
        obtain ⟨j, hj, hd, ho, hee⟩ := hB e he
        exact ⟨j, List.mem_cons_of_mem _ hj, hd, ho, hee⟩

theorem flushLoop_spec (f : Nat) :
    ∀ (is : List Nat) (m : BufMgr),
    ∃ m1 evs r, flushLoop f is m = (m1, evs, r) ∧
      m1.bufPool = m.bufPool ∧
      (∀ j, (frameAt m j).file ≠ some f → frameAt m1 j = frameAt m j) ∧
      (∀ k : Option Nat × Nat, k.1 ≠ some f →
        htLookup m1.hashTable k = htLookup m.hashTable k) ∧
      (∀ e ∈ evs, ∃ pg, e = Ev.writeP (some f) pg) ∧
      ∃ kcnt, kcnt ≤ is.length ∧ m1.accesses = m.accesses + kcnt ∧
        (r = Except.ok () → kcnt = is.length) := by
  intro is
  induction is with
  | nil =>
    intro m
    exact ⟨m, [], Except.ok (), rfl, rfl, fun j _ => rfl, fun k _ => rfl, by simp,
      ⟨0, by simp, rfl, fun _ => rfl⟩⟩
  | cons i rest ih =>
    intro m
    by_cases hfile : (frameAt m i).file = some f
    · by_cases hval : (frameAt m i).valid = false
      · refine ⟨{ m with accesses := m.accesses + 1 }, [], Except.error BufErr.badBuffer,
          ?_, rfl, fun j _ => rfl, fun k _ => rfl, by simp, ⟨1, by simp, rfl, by intro h; cases h⟩⟩
        unfold flushLoop
        rw [if_pos hfile, if_pos hval]
      · by_cases hpin : 0 < (frameAt m i).pinCnt
        · refine ⟨{ m with accesses := m.accesses + 1 }, [], Except.error BufErr.pagePinned,
            ?_, rfl, fun j _ => rfl, fun k _ => rfl, by simp, ⟨1, by simp, rfl, by intro h; cases h⟩⟩
          unfold flushLoop
          rw [if_pos hfile, if_neg hval, if_pos hpin]
        · by_cases hdirty : (frameAt m i).dirty = true
          · obtain ⟨mF, evs', r, heq', hpool, hframes, hht, hevs, kcnt, hk1, hk2, hk3⟩ := ih
              { m with
                  bufDescTable :=
                    (m.bufDescTable.set i { frameAt m i with dirty := false }).set i BufDesc.Clear
                , hashTable := removeEntry m.hashTable (some f, (frameAt m i).pageNo)
                , accesses := m.accesses + 1
                , diskwrites := m.diskwrites + 1 }
            refine ⟨mF, Ev.writeP (frameAt m i).file (m.bufPool.getD i 0) :: evs', r,
              ?_, ?_, ?_, ?_, ?_, ?_⟩
            · unfold flushLoop
              rw [if_pos hfile, if_neg hval, if_neg hpin, if_pos hdirty, if_pos hdirty]
              show (let r0 := flushLoop f rest _; (r0.1, _ ++ r0.2.1, r0.2.2)) = _
              rw [heq']
              rfl
            · exact hpool
            · intro j hj
              have hij : i ≠ j := by
                intro h
                exact hj (h ▸ hfile)
              have h2 : frameAt
                  { m with
                      bufDescTable :=
                        (m.bufDescTable.set i { frameAt m i with dirty := false }).set i
                          BufDesc.Clear
                    , hashTable := removeEntry m.hashTable (some f, (frameAt m i).pageNo)
                    , accesses := m.accesses + 1
                    , diskwrites := m.diskwrites + 1 } j = frameAt m j := by
                show ((m.bufDescTable.set i { frameAt m i with dirty := false }).set i
                    BufDesc.Clear).getD j BufDesc.Clear = m.bufDescTable.getD j BufDesc.Clear
                rw [frameAt_set_other _ i j _ hij, frameAt_set_other _ i j _ hij]
              rw [hframes j (by rw [h2]; exact hj), h2]
            · intro k hk
              have h2 : k ≠ (some f, (frameAt m i).pageNo) := by
                intro h
                rw [h] at hk
                exact hk rfl
              rw [hht k hk]
              exact htLookup_removeEntry_ne m.hashTable _ k h2
            · intro e he
              rcases List.mem_cons.mp he with he | he
              · exact ⟨m.bufPool.getD i 0, by rw [he, hfile]⟩
              · exact hevs e he
            · refine ⟨kcnt + 1, by simp; omega, ?_, ?_⟩
              · rw [hk2]
                show m.accesses + 1 + kcnt = m.accesses + (kcnt + 1)
                omega
              · intro hr
                rw [hk3 hr]
                simp
          · obtain ⟨mF, evs', r, heq', hpool, hframes, hht, hevs, kcnt, hk1, hk2, hk3⟩ := ih
              { m with
                  bufDescTable := m.bufDescTable.set i BufDesc.Clear
                , hashTable := removeEntry m.hashTable (some f, (frameAt m i).pageNo)
                , accesses := m.accesses + 1 }
            refine ⟨mF, evs', r, ?_, ?_, ?_, ?_, ?_, ?_⟩
            · unfold flushLoop
              rw [if_pos hfile, if_neg hval, if_neg hpin, if_neg hdirty, if_neg hdirty]
              show (let r0 := flushLoop f rest _; (r0.1, _ ++ r0.2.1, r0.2.2)) = _
              rw [heq']
              rfl
            · exact hpool
            · intro j hj
              have hij : i ≠ j := by
                intro h
                exact hj (h ▸ hfile)
              have h2 : frameAt
                  { m with
                      bufDescTable := m.bufDescTable.set i BufDesc.Clear
                    , hashTable := removeEntry m.hashTable (some f, (frameAt m i).pageNo)
                    , accesses := m.accesses + 1 } j = frameAt m j := by
                show (m.bufDescTable.set i BufDesc.Clear).getD j BufDesc.Clear =
                  m.bufDescTable.getD j BufDesc.Clear
                rw [frameAt_set_other _ i j _ hij]
              rw [hframes j (by rw [h2]; exact hj), h2]
            · intro k hk
              have h2 : k ≠ (some f, (frameAt m i).pageNo) := by
                intro h
                rw [h] at hk
                exact hk rfl
              rw [hht k hk]
              exact htLookup_removeEntry_ne m.hashTable _ k h2
            · exact hevs
            · refine ⟨kcnt + 1, by simp; omega, ?_, ?_⟩
              · rw [hk2]
                show m.accesses + 1 + kcnt = m.accesses + (kcnt + 1)
                omega
              · intro hr
                rw [hk3 hr]
                simp
    · obtain ⟨mF, evs', r, heq', hpool, hframes, hht, hevs, kcnt, hk1, hk2, hk3⟩ := ih
        { m with accesses := m.accesses + 1 }
      refine ⟨mF, evs', r, ?_, hpool, ?_, hht, hevs, ?_⟩
      · unfold flushLoop
        rw [if_neg hfile]
        exact heq'
      · intro j hj
        exact hframes j hj
      · refine ⟨kcnt + 1, by simp; omega, ?_, ?_⟩
        · rw [hk2]
          show m.accesses + 1 + kcnt = m.accesses + (kcnt + 1)
          omega
        · intro hr
          rw [hk3 hr]
          simp

/-! ### The claims -/

/-- Claim C1, counterexample to the claim as stated at a concrete input: in
the two-frame pool mC1 with every frame pinned (and frame 0's ref bit set),
fetching the uncached page (1, 2) does fail with BufferExhausted, but the
resulting pool state differs from the state before the call: the failed
sweep cleared frame 0's ref bit.  So the failing fetch does not leave the
entire pool state identical. -/
theorem readPage_exhausted_changes_state :
    (readPage mC1 1 2).2.2 = Except.error BufErr.bufferExhausted ∧ (readPage mC1 1 2).1 ≠ mC1 :=
  ⟨rfl, by decide⟩


/-- Claim C1, amended and proved: in any pool whose frames are all valid and
pinned, a fetch of a page with no directory entry fails with BufferExhausted
and performs no pager call; the directory, the buffer pool, the statistics,
and every frame's file, page, pin count, dirty bit and valid bit are
unchanged; only the clock hand may move and ref bits may be cleared (sweepOnly,
which also states that no ref bit is ever set).  The claim's assertion that
the entire state, clock hand and ref bits included, is identical fails, see
readPage_exhausted_changes_state. -/
theorem readPage_allPinned_spec (m : BufMgr) (f p : Nat)
    (hlen : m.bufDescTable.length = m.numBufs) (hn : 0 < m.numBufs)
    (hpin : ∀ i, i < m.numBufs → (frameAt m i).valid = true ∧ 0 < (frameAt m i).pinCnt)
    (hmiss : htLookup m.hashTable (some f, p) = none) :
    ∃ m1, readPage m f p = (m1, [], Except.error BufErr.bufferExhausted) ∧ sweepOnly m m1 := by
  have hfuel : countRef m.bufDescTable + (m.numBufs + 1 - 0) < 2 * m.numBufs + 2 := by
    have := countRef_le_length m.bufDescTable
    omega
  obtain ⟨m1, heq, hsw⟩ := allPinned_loop (2 * m.numBufs + 2) m 0 hlen hn hpin hfuel
  refine ⟨m1, ?_, hsw⟩
  unfold readPage
  rw [hmiss]
  unfold allocBuf
  rw [heq]


theorem readPage_allPinned_witness :
    (mC1.bufDescTable.length = mC1.numBufs) ∧ (0 < mC1.numBufs) ∧
    (∃ m1, readPage mC1 1 2 = (m1, [], Except.error BufErr.bufferExhausted) ∧ sweepOnly mC1 m1) :=
  ⟨rfl, by decide, readPage_allPinned_spec mC1 1 2 rfl (by decide) (by decide) rfl⟩


/-- Claim C2, evaluated at the failing input: evicting the valid dirty victim
of the one-frame pool mC2 does call writePage on the victim's owning file 7
for its page 3 (the write event is in the trace) and replaces the frame's
identity (descriptor cleared, directory entry gone) -- but diskwrites is left
unchanged, where the claim requires it to be incremented.  The source's
allocBuf (buffer.cpp line 115) performs the write-back without touching
bufStats.diskwrites, although the destructor (line 62) and flushFile (line
263) both increment it for the same kind of write-back. -/
theorem allocBuf_dirty_eviction_no_diskwrite :
    (allocBuf mC2).2.1 = [Ev.writeP (some 7) 3] ∧
    (allocBuf mC2).1.diskwrites = mC2.diskwrites ∧
    frameAt (allocBuf mC2).1 0 = BufDesc.Clear ∧
    htLookup (allocBuf mC2).1.hashTable (some 7, 3) = none :=
  ⟨rfl, rfl, rfl, rfl⟩

/-- Claim C3, confirmed: one visit of the allocBuf sweep (with the loop guard
pinCount less than or equal to numBufs still true) first advances the hand
and then treats the frame there exactly as claimed: an invalid frame is
returned immediately as the fresh frame; otherwise a set ref bit is cleared
and the sweep continues; otherwise a pinned frame is passed over without any
modification of the frame (only the local pinned counter grows); otherwise
the frame is the victim.  The last conjunct shows the immediately returned
invalid frame reaches the caller with an empty event trace (no write-back)
and no directory removal or clearing. -/
theorem allocBuf_visit_spec (m : BufMgr) (pc fuel : Nat) (hpc : pc ≤ m.numBufs) :
    ((handFrame (advanceClock m)).valid = false →
      allocBufLoop (fuel + 1) m pc =
        some (advanceClock m, LoopExit.freshFrame (advanceClock m).clockHand)) ∧
    ((handFrame (advanceClock m)).valid = true → (handFrame (advanceClock m)).refbit = true →
      allocBufLoop (fuel + 1) m pc = allocBufLoop fuel (clearRefAtHand (advanceClock m)) pc) ∧
    ((handFrame (advanceClock m)).valid = true → (handFrame (advanceClock m)).refbit = false →
      (handFrame (advanceClock m)).pinCnt ≠ 0 →
      allocBufLoop (fuel + 1) m pc = allocBufLoop fuel (advanceClock m) (pc + 1)) ∧
    ((handFrame (advanceClock m)).valid = true → (handFrame (advanceClock m)).refbit = false →
      (handFrame (advanceClock m)).pinCnt = 0 →
      allocBufLoop (fuel + 1) m pc =
        some (advanceClock m, LoopExit.victim (advanceClock m).clockHand)) ∧
    (∀ m2 i, allocBufLoop (2 * m.numBufs + 2) m 0 = some (m2, LoopExit.freshFrame i) →
      allocBuf m = (m2, [], Except.ok i)) := by
  have hgate : ¬ (m.numBufs < pc) := by omega
  refine ⟨?_, ?_, ?_, ?_, ?_⟩
  · intro hv
    rw [allocBufLoop_succ, if_neg hgate, if_pos hv]
  · intro hv hr
    rw [allocBufLoop_succ, if_neg hgate, if_neg (by simp [hv]), if_pos hr]
  · intro hv hr hp
    rw [allocBufLoop_succ, if_neg hgate, if_neg (by simp [hv]), if_neg (by simp [hr]),
      if_neg hp]
  · intro hv hr hp
    rw [allocBufLoop_succ, if_neg hgate, if_neg (by simp [hv]), if_neg (by simp [hr]),
      if_pos hp]
  · intro m2 i heq
    unfold allocBuf
    rw [heq]


theorem allocBuf_visit_witness :
    ((handFrame (advanceClock mC3)).valid = false →
      allocBufLoop (0 + 1) mC3 0 =
        some (advanceClock mC3, LoopExit.freshFrame (advanceClock mC3).clockHand)) ∧
    ((handFrame (advanceClock mC3)).valid = true → (handFrame (advanceClock mC3)).refbit = true →
      allocBufLoop (0 + 1) mC3 0 = allocBufLoop 0 (clearRefAtHand (advanceClock mC3)) 0) ∧
    ((handFrame (advanceClock mC3)).valid = true → (handFrame (advanceClock mC3)).refbit = false →
      (handFrame (advanceClock mC3)).pinCnt ≠ 0 →
      allocBufLoop (0 + 1) mC3 0 = allocBufLoop 0 (advanceClock mC3) (0 + 1)) ∧
    ((handFrame (advanceClock mC3)).valid = true → (handFrame (advanceClock mC3)).refbit = false →
      (handFrame (advanceClock mC3)).pinCnt = 0 →
      allocBufLoop (0 + 1) mC3 0 =
        some (advanceClock mC3, LoopExit.victim (advanceClock mC3).clockHand)) ∧
    (∀ m2 i, allocBufLoop (2 * mC3.numBufs + 2) mC3 0 = some (m2, LoopExit.freshFrame i) →
      allocBuf mC3 = (m2, [], Except.ok i)) :=
  allocBuf_visit_spec mC3 0 0 (by decide)


/-- Claim C4, evaluated at the failing input: in the three-frame pool mC4,
frame 2 has pin count zero (so the claim requires a victim within six hand
advances), yet allocBuf terminates with BufferExhausted: the source's
pinCount counter (buffer.cpp lines 90 to 110) also counts revisits of the
pinned frames 0 and 1 and trips the guard before the hand returns to frame 2
after clearing its ref bit.  This contradicts the source's own documentation
(line 86: BufferExceededException is thrown if all buffer frames are
pinned). -/
theorem allocBuf_premature_exhaustion :
    (allocBuf mC4).2.2 = Except.error BufErr.bufferExhausted ∧
    (frameAt mC4 2).pinCnt = 0 ∧ 2 < mC4.numBufs ∧
    (frameAt mC4 2).valid = true :=
  ⟨rfl, rfl, by decide, rfl⟩

/-- Claim C5, evaluated at the failing input: a fetch of the uncached page
(7, 0) on a fresh pool of size 3 performs the pager read (the readP event is
in the trace), yet leaves accesses and diskreads at zero: readPage
(buffer.cpp lines 145 to 170) never updates bufStats, where the claim
requires accesses to grow by one on every call and diskreads by one on every
miss. -/
theorem readPage_stats_not_updated :
    (readPage (BufMgr.init 3) 7 0).2.1 = [Ev.readP 7 0] ∧
    (readPage (BufMgr.init 3) 7 0).1.accesses = 0 ∧
    (readPage (BufMgr.init 3) 7 0).1.diskreads = 0 ∧
    (readPage (BufMgr.init 3) 7 0).2.2 = Except.ok 0 :=
  ⟨rfl, rfl, rfl, rfl⟩

/-- Claim C6, evaluated at the failing input: unpinning the uncached page
(7, 5) on a fresh pool of size 2 changes nothing but raises hashNotFound
instead of being the claimed silent no-op: the handler at buffer.cpp line 201
declares a function type and never matches, so the HashNotFoundException
from the lookup escapes unPinPage, contradicting the source's own
documentation (line 175: does nothing if the page is not found). -/
theorem unPinPage_miss_raises :
    unPinPage (BufMgr.init 2) 7 5 false = (BufMgr.init 2, Except.error BufErr.hashNotFound) :=
  rfl

/-- Claim C7, confirmed: destroying a pool (in any state satisfying the
invariant that dirty frames are valid) writes back exactly the dirty frames
whose owning file is still open -- every such frame's page appears as a write
event, every write event comes from such a frame (so frames of closed files
are skipped without a write attempt), and diskwrites grows by exactly the
number of writes.  destructBufMgr returns a plain state and trace: the
shutdown raises no error. -/
theorem destructBufMgr_spec (m : BufMgr) (openFiles : List Nat)
    (hdv : ∀ i, i < m.numBufs → (frameAt m i).dirty = true → (frameAt m i).valid = true) :
    ∃ m1 evs, destructBufMgr m openFiles = (m1, evs) ∧
      (∀ i, i < m.numBufs → (frameAt m i).valid = true → (frameAt m i).dirty = true →
        isOpenF openFiles (frameAt m i).file = true →
        Ev.writeP (frameAt m i).file (m.bufPool.getD i 0) ∈ evs) ∧
      (∀ e ∈ evs, ∃ i, i < m.numBufs ∧ (frameAt m i).valid = true ∧
        (frameAt m i).dirty = true ∧ isOpenF openFiles (frameAt m i).file = true ∧
        e = Ev.writeP (frameAt m i).file (m.bufPool.getD i 0)) ∧
      m1.diskwrites = m.diskwrites + evs.length := by
  obtain ⟨m1, evs, heq, hA, hB, hW, _⟩ :=
    dtorLoop_spec openFiles (List.range m.numBufs) m (List.nodup_range m.numBufs)
  refine ⟨m1, evs, heq, ?_, ?_, hW⟩
  · intro i hi _ hd ho
    exact hA i (List.mem_range.mpr hi) hd ho
  · intro e he
    obtain ⟨i, hi, hd, ho, hee⟩ := hB e he
    have hi' : i < m.numBufs := List.mem_range.mp hi
    exact ⟨i, hi', hdv i hi' hd, hd, ho, hee⟩


theorem destructBufMgr_witness :
    (∀ i, i < mC7.numBufs → (frameAt mC7 i).dirty = true → (frameAt mC7 i).valid = true) ∧
    (∃ m1 evs, destructBufMgr mC7 [1] = (m1, evs) ∧
      (∀ i, i < mC7.numBufs → (frameAt mC7 i).valid = true → (frameAt mC7 i).dirty = true →
        isOpenF [1] (frameAt mC7 i).file = true →
        Ev.writeP (frameAt mC7 i).file (mC7.bufPool.getD i 0) ∈ evs) ∧
      (∀ e ∈ evs, ∃ i, i < mC7.numBufs ∧ (frameAt mC7 i).valid = true ∧
        (frameAt mC7 i).dirty = true ∧ isOpenF [1] (frameAt mC7 i).file = true ∧
        e = Ev.writeP (frameAt mC7 i).file (mC7.bufPool.getD i 0)) ∧
      m1.diskwrites = mC7.diskwrites + evs.length) :=
  ⟨by decide, destructBufMgr_spec mC7 [1] (by decide)⟩


/-- Claim C8, confirmed: for any pool and file, flushFile leaves every frame
whose file handle differs from the given file unchanged, leaves the buffer
pool and the directory entries of other files untouched, makes pager calls
only on the given file, and increments accesses exactly once per frame the
scan inspects: some count of inspected frames bounded by numBufs in general,
and exactly numBufs (every frame of the scan) when the flush returns without
error. -/
theorem flushFile_spec (m : BufMgr) (f : Nat) :
    ∃ m1 evs r, flushFile m f = (m1, evs, r) ∧
      m1.bufPool = m.bufPool ∧
      (∀ j, (frameAt m j).file ≠ some f → frameAt m1 j = frameAt m j) ∧
      (∀ k : Option Nat × Nat, k.1 ≠ some f →
        htLookup m1.hashTable k = htLookup m.hashTable k) ∧
      (∀ e ∈ evs, ∃ pg, e = Ev.writeP (some f) pg) ∧
      ∃ kcnt, kcnt ≤ m.numBufs ∧ m1.accesses = m.accesses + kcnt ∧
        (r = Except.ok () → kcnt = m.numBufs) := by
  obtain ⟨m1, evs, r, heq, hpool, hframes, hht, hevs, kcnt, hk1, hk2, hk3⟩ :=
    flushLoop_spec f (List.range m.numBufs) m
  refine ⟨m1, evs, r, heq, hpool, hframes, hht, hevs, kcnt, ?_, hk2, ?_⟩
  · rw [List.length_range] at hk1
    exact hk1
  · intro hr
    rw [← List.length_range m.numBufs]
    exact hk3 hr

/-- Claim C9, evaluated at the failing input: disposing the uncached page
(7, 5) on a fresh pool of size 2 raises hashNotFound with an empty event
trace -- deletePage is never called, where the claim requires
file.delete_page in every case: the handler at buffer.cpp line 294 declares
a function type and never matches, so the HashNotFoundException from the
lookup escapes before line 298, contradicting the source's own comment (do
nothing) and documentation (delete page from file, and also from the buffer
pool if present). -/
theorem disposePage_miss_skips_delete :
    disposePage (BufMgr.init 2) 7 5 = (BufMgr.init 2, [], Except.error BufErr.hashNotFound) :=
  rfl

/-- Claim C10, confirmed: for a cached page (directory entry consistent with
the frame, as invariant I2 guarantees), disposePage removes the directory
entry, clears the frame and calls deletePage -- with no hypothesis at all on
the frame's pin count or dirty bit, so a pinned or dirty page is disposed
the same way: the call succeeds (never PagePinned), the trace holds exactly
the deleteP event (never a write-back), and the pin count is never
inspected.  The witness instantiates it on a frame with pin count 5 and the
dirty bit set. -/
theorem disposePage_cached_spec (m : BufMgr) (f p i : Nat)
    (hl : htLookup m.hashTable (some f, p) = some i)
    (hf : (frameAt m i).file = some f) (hp : (frameAt m i).pageNo = p)
    (hi : i < m.bufDescTable.length) :
    ∃ m1, disposePage m f p = (m1, [Ev.deleteP f p], Except.ok ()) ∧
      htLookup m1.hashTable (some f, p) = none ∧
      frameAt m1 i = BufDesc.Clear ∧
      m1.bufPool = m.bufPool ∧
      m1.accesses = m.accesses ∧ m1.diskreads = m.diskreads ∧ m1.diskwrites = m.diskwrites := by
  refine ⟨{ m with
      hashTable := removeEntry m.hashTable ((frameAt m i).file, (frameAt m i).pageNo)
    , bufDescTable := m.bufDescTable.set i BufDesc.Clear }, ?_, ?_, ?_, rfl, rfl, rfl, rfl⟩
  · unfold disposePage
    rw [hl]
  · rw [hf, hp]
    exact htLookup_removeEntry_self m.hashTable (some f, p)
  · show (m.bufDescTable.set i BufDesc.Clear).getD i BufDesc.Clear = BufDesc.Clear
    rw [listGetD_set]
    simp [hi]


theorem disposePage_cached_witness :
    (htLookup mC10.hashTable (some 7, 3) = some 0) ∧
    ((frameAt mC10 0).file = some 7) ∧ ((frameAt mC10 0).pageNo = 3) ∧
    (0 < mC10.bufDescTable.length) ∧ (0 < (frameAt mC10 0).pinCnt) ∧
    ((frameAt mC10 0).dirty = true) ∧
    (∃ m1, disposePage mC10 7 3 = (m1, [Ev.deleteP 7 3], Except.ok ()) ∧
      htLookup m1.hashTable (some 7, 3) = none ∧
      frameAt m1 0 = BufDesc.Clear ∧
      m1.bufPool = mC10.bufPool ∧
      m1.accesses = mC10.accesses ∧ m1.diskreads = mC10.diskreads ∧
      m1.diskwrites = mC10.diskwrites) :=
  ⟨rfl, rfl, rfl, by decide, by decide, rfl,
    disposePage_cached_spec mC10 7 3 0 rfl rfl rfl (by decide)⟩

